import Mathlib

/-!
Shallow embedding of the proxy-cascade RSS fetcher (proxy_rss.py) and proofs
about its proxy-source parsers, fetch validation, failover controller and
publish step. External effects (HTTP requests, the random shuffler, the
publish store) are abstracted as explicit oracle parameters; everything else
is translated directly from the Python source.
-/

namespace ProxyRss

/-- Python str.strip(): drop leading and trailing whitespace. Implemented by
structural recursion on the character list so that proofs and concrete
evaluation go through the kernel. -/
def pyStrip (s : String) : String :=
  ⟨((s.data.dropWhile Char.isWhitespace).reverse.dropWhile
      Char.isWhitespace).reverse⟩

/-- Split a character list at every character satisfying p (Python
str.split(sep) keeps empty pieces). -/
def splitOnPred (p : Char → Bool) : List Char → List (List Char)
  | [] => [[]]
  | c :: cs =>
    let r := splitOnPred p cs
    if p c then [] :: r
    else
      match r with
      | [] => [[c]]
      | h :: t => (c :: h) :: t

/-- Python s.split(":"). -/
def pySplitColon (s : String) : List String :=
  (splitOnPred (fun c => c = ':') s.data).map (fun l => ⟨l⟩)

/-- Python str.split() with no argument: split on whitespace runs, dropping
empty pieces. -/
def pySplitWs (s : String) : List String :=
  ((splitOnPred Char.isWhitespace s.data).map (fun l => ⟨l⟩)).filter
    (fun w => w ≠ "")

/-- Python `":" in line`. -/
def pyContainsColon (s : String) : Bool :=
  s.data.contains ':'

/-- Python str.lower(). -/
def pyLower (s : String) : String :=
  ⟨s.data.map Char.toLower⟩

/-- Parse a digit string as a natural number (for the spec's "port is an
integer in [1, 65535]" predicate); none when empty or non-numeric. -/
def pyToNatAux : List Char → Nat → Option Nat
  | [], acc => some acc
  | c :: cs, acc =>
    if c.isDigit then pyToNatAux cs (acc * 10 + (c.toNat - 48)) else none

/-- Numeric value of a string, when it is a non-empty digit string. -/
def pyToNat? (s : String) : Option Nat :=
  if s.data = [] then none else pyToNatAux s.data 0

instance {ε α : Type} [DecidableEq ε] [DecidableEq α] :
    DecidableEq (Except ε α) := fun a b =>
  match a, b with
  | .error e, .error f =>
    if h : e = f then .isTrue (congrArg Except.error h)
    else .isFalse (fun c => h (Except.error.inj c))
  | .ok x, .ok y =>
    if h : x = y then .isTrue (congrArg Except.ok h)
    else .isFalse (fun c => h (Except.ok.inj c))
  | .error _, .ok _ => .isFalse (fun c => Except.noConfusion c)
  | .ok _, .error _ => .isFalse (fun c => Except.noConfusion c)

/-- A proxy dict as built by the five listing scrapers:
`{"ip": ..., "port": ..., "type": ...}` with string values. -/
structure ProxyDict where
  ip : String
  port : String
  type : String
deriving DecidableEq, Repr

/-- Result of one transport-level interaction (requests.get through a proxy):
either a response with its final HTTP status and body text, or a raised
requests exception (connect error, timeout, DNS failure, ...). -/
inductive HttpResult where
  | resp (status : Nat) (body : String)
  | exn
deriving DecidableEq, Repr

/-- requests' Response.raise_for_status raises exactly when
400 <= status_code < 600. -/
def raise_for_status_ok (status : Nat) : Bool :=
  decide (¬ (400 ≤ status ∧ status < 600))

/-- Python `"<dc:date>" in content`: substring containment of the literal
validity marker. -/
def contains_marker (content : String) : Bool :=
  decide (("<dc:date>").data <:+: content.data)

/-- The spec's FetchOutcome. In the code, Success content is `return content`;
Invalid is the `return None` after the missing-marker log line (line 272); and
NetworkFailure is the `return None` in the except arm (line 277). -/
inductive FetchOutcome where
  | Success (content : String)
  | Invalid
  | NetworkFailure
deriving DecidableEq, Repr

/-- fetch_rss_with_proxy (proxy_rss.py lines 252-277). The transport
interaction through the given proxy is abstracted as its observed HttpResult;
raise_for_status feeds the same except arm as a transport exception. -/
def fetch_rss_with_proxy (r : HttpResult) : FetchOutcome :=
  match r with
  | .exn => .NetworkFailure
  | .resp status body =>
    if raise_for_status_ok status then
      if contains_marker body then .Success body else .Invalid
    else .NetworkFailure

/-- The claim's notion of a 2xx HTTP status. -/
def is2xx (status : Nat) : Bool :=
  decide (200 ≤ status ∧ status < 300)

/-- try_all_proxies_once (lines 280-289). The Fetcher is an oracle
`fetch : ProxyDict → Option String` returning the content on success and none
on failure, matching the Python function's return convention (a Success body
always contains the marker, hence is non-empty, so Python truthiness of the
returned content coincides with matching on some/none). -/
def try_all_proxies_once (fetch : ProxyDict → Option String) :
    List ProxyDict → Option String
  | [] => none
  | p :: rest =>
    match fetch p with
    | some c => some c
    | none => try_all_proxies_once fetch rest

/-- try_proxies_multiple_attempts (lines 292-303). random.shuffle mutates
proxies_list in place, so the embedding passes the list state explicitly; the
shuffler is an oracle `shuffle : Nat → List ProxyDict → List ProxyDict`
indexed by a global draw counter (one fresh draw per round). The result is
(the Python return value, the final state of the caller's list). -/
def try_proxies_multiple_attempts (fetch : ProxyDict → Option String)
    (shuffle : Nat → List ProxyDict → List ProxyDict) :
    Nat → Nat → List ProxyDict → Option String × List ProxyDict
  | 0, _, ps => (none, ps)
  | n + 1, ctr, ps =>
    let ps1 := shuffle ctr ps
    match try_all_proxies_once fetch ps1 with
    | some c => (some c, ps1)
    | none => try_proxies_multiple_attempts fetch shuffle n (ctr + 1) ps1

/-- Instrumented try_all_proxies_once recording every Fetcher invocation in
order, paired with its result. -/
def try_all_proxies_once_tr (fetch : ProxyDict → Option String) :
    List ProxyDict → Option String × List (ProxyDict × Option String)
  | [] => (none, [])
  | p :: rest =>
    match fetch p with
    | some c => (some c, [(p, some c)])
    | none =>
      let r := try_all_proxies_once_tr fetch rest
      (r.1, (p, none) :: r.2)

/-- Output of one source's attempt loop: the returned content (if any), the
Fetcher invocation trace, the final state of the proxy list, and the next
shuffle-draw counter. -/
structure MultiOut where
  result : Option String
  trace : List (ProxyDict × Option String)
  state : List ProxyDict
  ctr : Nat
deriving DecidableEq, Repr

/-- Instrumented try_proxies_multiple_attempts. -/
def try_proxies_multiple_attempts_tr (fetch : ProxyDict → Option String)
    (shuffle : Nat → List ProxyDict → List ProxyDict) :
    Nat → Nat → List ProxyDict → MultiOut
  | 0, ctr, ps => ⟨none, [], ps, ctr⟩
  | n + 1, ctr, ps =>
    let ps1 := shuffle ctr ps
    let r := try_all_proxies_once_tr fetch ps1
    match r.1 with
    | some c => ⟨some c, r.2, ps1, ctr + 1⟩
    | none =>
      let m := try_proxies_multiple_attempts_tr fetch shuffle n (ctr + 1) ps1
      ⟨m.result, r.2 ++ m.trace, m.state, m.ctr⟩

/-- One source block of main: the batch its listing call produced and its
attempt budget. -/
structure SourceSpec where
  batch : List ProxyDict
  attempts : Nat
deriving DecidableEq, Repr

/-- Terminal state of a run: DONE with the published content, or the final
FAILED log line of main (line 428). -/
inductive RunResult where
  | DONE (content : String)
  | FAILED
deriving DecidableEq, Repr

/-- Observable outcome of a run: terminal state, Fetcher invocation trace,
the contents passed to update_github_rss_feed (in order), and the final
shuffle-draw counter. -/
structure RunOut where
  result : RunResult
  trace : List (ProxyDict × Option String)
  pubs : List String
  ctr : Nat
deriving DecidableEq, Repr

/-- main (lines 364-428), generalized over the source cascade: each of the
five blocks checks `if <list>:` (empty or falsy batch skips straight to the
next block), otherwise runs try_proxies_multiple_attempts with the block's
attempt budget, publishes and returns on success, and falls through to the
next block on failure; after the last block it prints the FAILED line. -/
def run_sources (fetch : ProxyDict → Option String)
    (shuffle : Nat → List ProxyDict → List ProxyDict) :
    Nat → List SourceSpec → RunOut
  | ctr, [] => ⟨.FAILED, [], [], ctr⟩
  | ctr, s :: rest =>
    if s.batch.isEmpty then run_sources fetch shuffle ctr rest
    else
      let m := try_proxies_multiple_attempts_tr fetch shuffle s.attempts ctr s.batch
      match m.result with
      | some c => ⟨.DONE c, m.trace, [c], m.ctr⟩
      | none =>
        let r := run_sources fetch shuffle m.ctr rest
        ⟨r.result, m.trace ++ r.trace, r.pubs, r.ctr⟩

/-- The attempt budgets of main's five source blocks, in order
(freeproxy.world, ProxyScrape, Proxyscan, PubProxy, GetProxyList). -/
def main_attempts : List Nat := [3, 2, 2, 2, 2]

/-- One tr of the freeproxy.world layui-table body: the stripped texts of its
td cells in order, plus the stripped text of its td.show-ip-div cell when one
is present (the BeautifulSoup layer is abstracted to this row structure). -/
structure FpwRow where
  cells : List String
  show_ip : Option String
deriving DecidableEq, Repr

/-- Row-loop body of get_jp_proxies_from_freeproxy_world (lines 38-58).
`.error ()` is the IndexError raised by `proxy_type.split()[0]` when the type
cell's stripped text is empty; returns none when the row is skipped. -/
def fpw_parse_row (r : FpwRow) : Except Unit (Option ProxyDict) :=
  if r.cells.length < 6 then .ok none
  else
    let ip := match r.show_ip with
      | some s => s
      | none => r.cells.getD 0 ""
    let port := r.cells.getD 1 ""
    match pySplitWs (pyLower (r.cells.getD 5 "")) with
    | [] => .error ()
    | ptype :: _ =>
      if ip ≠ "" ∧ port ≠ "" ∧ ptype ≠ "" then .ok (some ⟨ip, port, ptype⟩)
      else .ok none

/-- The row loop of get_jp_proxies_from_freeproxy_world; an IndexError in any
row aborts the whole function (nothing is returned). -/
def fpw_parse_rows : List FpwRow → Except Unit (List ProxyDict)
  | [] => .ok []
  | r :: rs =>
    match fpw_parse_row r with
    | .error e => .error e
    | .ok o =>
      match fpw_parse_rows rs with
      | .error e => .error e
      | .ok rest =>
        .ok (match o with
          | some p => p :: rest
          | none => rest)

/-- The freeproxy.world page after BeautifulSoup: either the expected
table/tbody markup is absent, or it yields a list of rows. -/
inductive FpwPage where
  | noTable
  | noTbody
  | rows (rs : List FpwRow)
deriving Repr

/-- get_jp_proxies_from_freeproxy_world (lines 12-61). The network request is
`resp` (.error = requests exception, caught at lines 21-23 and turned into an
empty list); missing table or tbody markup also yields an empty list. The
row-parsing loop is NOT inside any try/except, so its IndexError escapes the
function: a top-level `.error` models the uncaught exception. -/
def get_jp_proxies_from_freeproxy_world (resp : Except Unit FpwPage) :
    Except Unit (List ProxyDict) :=
  match resp with
  | .error _ => .ok []
  | .ok .noTable => .ok []
  | .ok .noTbody => .ok []
  | .ok (.rows rs) => fpw_parse_rows rs

/-- Per-line loop of get_jp_proxies_from_proxyscrape for one protocol tier
(lines 82-92). The Bool records that a ValueError from the two-target
unpacking `ip, port = line.split(":")` aborted the loop; it is caught by the
per-protocol except, keeping the records parsed so far. -/
def pscrape_lines (ptype : String) : List String → List ProxyDict × Bool
  | [] => ([], false)
  | l :: ls =>
    let line := pyStrip l
    if line = "" ∨ ¬ pyContainsColon line then pscrape_lines ptype ls
    else
      match pySplitColon line with
      | [ip, port] =>
        let r := pscrape_lines ptype ls
        (⟨pyStrip ip, pyStrip port, ptype⟩ :: r.1, r.2)
      | _ => ([], true)

/-- One protocol tier of get_jp_proxies_from_proxyscrape: the GET plus line
parsing of one iteration of the protocol loop (lines 77-94). `resp` carries
`resp.text.strip().splitlines()` as a line list; a requests error (.error) is
caught and contributes nothing. -/
def pscrape_tier (ptype : String) (resp : Except Unit (List String)) :
    List ProxyDict :=
  match resp with
  | .error _ => []
  | .ok ls => (pscrape_lines ptype ls).1

/-- get_jp_proxies_from_proxyscrape (lines 68-97): one response per protocol
in (http, socks4, socks5) order; every error path is caught, so the function
always returns a list. -/
def get_jp_proxies_from_proxyscrape (rh r4 r5 : Except Unit (List String)) :
    Except Unit (List ProxyDict) :=
  .ok (pscrape_tier "http" rh ++ pscrape_tier "socks4" r4 ++
    pscrape_tier "socks5" r5)

/-- One element of the Proxyscan JSON array. `.get("Ip")` / `.get("Port")`
yield none when the field is missing; `.get("Type", "")` defaults to the
empty string. JSON field values are modelled as strings. -/
structure PsEntry where
  jIp : Option String
  jPort : Option String
  jType : String
deriving DecidableEq, Repr

/-- Entry-loop body of get_jp_proxies_from_proxyscan (lines 115-126). Python
truthiness of `if ip and port and ptype:` is the none-or-empty check; the
https coercion happens after that check. -/
def proxyscan_entry (e : PsEntry) : Option ProxyDict :=
  match e.jIp, e.jPort with
  | some ip, some port =>
    let ptype := pyLower e.jType
    if ip ≠ "" ∧ port ≠ "" ∧ ptype ≠ "" then
      some ⟨pyStrip ip, pyStrip port, if ptype = "https" then "http" else ptype⟩
    else none
  | _, _ => none

/-- get_jp_proxies_from_proxyscan (lines 104-131). The single GET plus JSON
decoding is `resp`; the whole loop sits inside the try and the modelled
per-entry work is total, so the function always returns a list (empty when
the request failed). -/
def get_jp_proxies_from_proxyscan (resp : Except Unit (List PsEntry)) :
    Except Unit (List ProxyDict) :=
  .ok (match resp with
    | .error _ => []
    | .ok es => es.filterMap proxyscan_entry)

/-- Item loop of one PubProxy block (e.g. lines 152-160). The items are the
`item.get("ipPort", "")` strings of the data array; a ValueError from the
unpacking `ip, port = ip_port.split(":")` aborts that block's loop (caught by
the block's except), keeping earlier records. -/
def pubproxy_items (ptype : String) : List String → List ProxyDict × Bool
  | [] => ([], false)
  | it :: its =>
    if it = "" then pubproxy_items ptype its
    else
      match pySplitColon it with
      | [ip, port] =>
        let r := pubproxy_items ptype its
        (⟨pyStrip ip, pyStrip port, ptype⟩ :: r.1, r.2)
      | _ => ([], true)

/-- One independently-guarded block of get_jp_proxies_from_pubproxy: request
(.error caught, contributes nothing) then the item loop. -/
def pubproxy_block (ptype : String) (resp : Except Unit (List String)) :
    List ProxyDict :=
  match resp with
  | .error _ => []
  | .ok its => (pubproxy_items ptype its).1

/-- get_jp_proxies_from_pubproxy (lines 138-201): three independently-guarded
blocks (http, socks4, socks5); always returns a list. -/
def get_jp_proxies_from_pubproxy (rh r4 r5 : Except Unit (List String)) :
    Except Unit (List ProxyDict) :=
  .ok (pubproxy_block "http" rh ++ pubproxy_block "socks4" r4 ++
    pubproxy_block "socks5" r5)

/-- One JSON response of GetProxyList: ip (absent → none), port (a JSON
number, with 0 falsy in Python), the protocols array, and the singular
protocol field (`.get("protocol", "")`). -/
structure GplResp where
  jip : Option String
  jport : Option Nat
  protocols : List String
  protocol : String
deriving DecidableEq, Repr

/-- Lines 224-228: the protocols list, falling back to the singular lowered
protocol field when the list is empty. -/
def gpl_protocols (d : GplResp) : List String :=
  if d.protocols ≠ [] then d.protocols
  else
    let p := pyLower d.protocol
    if p ≠ "" then [p] else []

/-- Protocol normalization of get_jp_proxies_from_getproxylist (lines
231-233): lowercase, then coerce https to http. -/
def gpl_norm (pr : String) : String :=
  let pr1 := pyLower pr
  if pr1 = "https" then "http" else pr1

/-- Inner protocol loop of get_jp_proxies_from_getproxylist (lines 230-239):
normalize, then emit only when ip and port are truthy and the normalized
protocol is one of the three accepted values. -/
def gpl_entry (d : GplResp) : List ProxyDict :=
  (gpl_protocols d).filterMap (fun pr =>
    match d.jip, d.jport with
    | some ip, some port =>
      if ip ≠ "" ∧ port ≠ 0 ∧ (gpl_norm pr = "http" ∨ gpl_norm pr = "socks4" ∨
          gpl_norm pr = "socks5") then
        some ⟨pyStrip ip, toString port, gpl_norm pr⟩
      else none
    | _, _ => none)

/-- get_jp_proxies_from_getproxylist (lines 208-245): num_requests calls, one
response each; each call's requests/JSON failure is caught (continue), so the
function always returns a list. -/
def get_jp_proxies_from_getproxylist (resps : List (Except Unit GplResp)) :
    Except Unit (List ProxyDict) :=
  .ok (resps.flatMap (fun r =>
    match r with
    | .error _ => []
    | .ok d => gpl_entry d))

/-- The ProxyRecord shape asserted by the spec (section 8): non-empty address,
port an integer in [1, 65535], scheme among the three accepted values. -/
def claimed_record_shape (p : ProxyDict) : Bool :=
  (p.ip != "") &&
    (match pyToNat? p.port with
      | some n => decide (1 ≤ n) && decide (n ≤ 65535)
      | none => false) &&
    ((p.type == "http") || (p.type == "socks4") || (p.type == "socks5"))

/-- Modelled from the spec: state of the publish store (section 6), the
optional stored (content, revision id) at the fixed publish path. The store
itself is an external collaborator, not part of the repository's code. -/
structure Store where
  file : Option (String × String)
deriving DecidableEq, Repr

/-- Modelled from the spec: GET of the contents endpoint — the current
revision id when the path exists (status 200), none on 404. This mirrors the
sha extraction of lines 332-339. -/
def store_get (s : Store) : Option String :=
  s.file.map (fun f => f.2)

/-- Modelled from the spec: PUT of the contents endpoint — create (201) when
the path is absent and no revision id is supplied; update (200) when the
supplied revision id matches the stored one; otherwise a conflict status,
leaving the stored content unchanged. newSha is the revision id the store
assigns to the newly written content. -/
def store_put (s : Store) (sha : Option String) (content newSha : String) :
    Nat × Store :=
  match s.file, sha with
  | none, none => (201, ⟨some (content, newSha)⟩)
  | none, some _ => (409, s)
  | some _, none => (422, s)
  | some (_, cur), some g =>
    if g = cur then (200, ⟨some (content, newSha)⟩) else (409, s)

/-- update_github_rss_feed (lines 310-357): read the current revision id via
GET, then PUT the new content, supplying that id when one was found. `mid`
models any store modification made by other writers between the GET and the
PUT (the optimistic-concurrency window). Returns the PUT status and the
resulting store state. -/
def update_github_rss_feed (s0 : Store) (mid : Store → Store)
    (content newSha : String) : Nat × Store :=
  let sha := store_get s0
  store_put (mid s0) sha content newSha

/-- The spec's PublishResult. -/
inductive PublishResult where
  | Created
  | Updated
  | Rejected
deriving DecidableEq, Repr

/-- Modelled from the spec: classification of the PUT status as a
PublishResult (201 → Created, 200 → Updated, anything else → Rejected). The
code itself treats 200 and 201 uniformly as success (line 353). -/
def publish_result (status : Nat) : PublishResult :=
  if status = 201 then .Created else if status = 200 then .Updated
  else .Rejected

/-! Helper lemmas about the instrumented controller. -/

theorem once_tr_fst (f : ProxyDict → Option String) :
    ∀ l : List ProxyDict,
      (try_all_proxies_once_tr f l).1 = try_all_proxies_once f l
  | [] => rfl
  | p :: rest => by
    cases hf : f p with
    | some c => simp [try_all_proxies_once_tr, try_all_proxies_once, hf]
    | none =>
      simp [try_all_proxies_once_tr, try_all_proxies_once, hf]
      exact once_tr_fst f rest

theorem once_tr_none_eq (f : ProxyDict → Option String) :
    ∀ l : List ProxyDict, (try_all_proxies_once_tr f l).1 = none →
      (try_all_proxies_once_tr f l).2 = l.map (fun p => (p, none))
  | [], _ => rfl
  | p :: rest, h => by
    cases hf : f p with
    | some c => simp [try_all_proxies_once_tr, hf] at h
    | none =>
      simp only [try_all_proxies_once_tr, hf] at h ⊢
      simp only [List.map_cons, List.cons.injEq, true_and]
      exact once_tr_none_eq f rest h

theorem once_tr_none_of_all_fail (f : ProxyDict → Option String) :
    ∀ l : List ProxyDict, (∀ p ∈ l, f p = none) →
      (try_all_proxies_once_tr f l).1 = none
  | [], _ => rfl
  | p :: rest, h => by
    have hf : f p = none := h p (by simp)
    simp only [try_all_proxies_once_tr, hf]
    exact once_tr_none_of_all_fail f rest (fun q hq => h q (by simp [hq]))

theorem once_tr_some_eq (f : ProxyDict → Option String) :
    ∀ l : List ProxyDict, ∀ c : String,
      (try_all_proxies_once_tr f l).1 = some c →
      ∃ t p, (try_all_proxies_once_tr f l).2 = t ++ [(p, some c)] ∧
        (∀ x ∈ t, x.2 = none) ∧ f p = some c
  | [], c, h => by simp [try_all_proxies_once_tr] at h
  | p :: rest, c, h => by
    cases hf : f p with
    | some c0 =>
      simp only [try_all_proxies_once_tr, hf, Option.some.injEq] at h ⊢
      exact ⟨[], p, by simp [h ▸ hf, h], by simp, h ▸ hf⟩
    | none =>
      simp only [try_all_proxies_once_tr, hf] at h ⊢
      obtain ⟨t, q, h1, h2, h3⟩ := once_tr_some_eq f rest c h
      exact ⟨(p, none) :: t, q, by simp [h1], by
        intro x hx
        rcases List.mem_cons.1 hx with hx | hx
        · simp [hx]
        · exact h2 x hx, h3⟩

theorem multi_tr_char (f : ProxyDict → Option String)
    (sh : Nat → List ProxyDict → List ProxyDict) :
    ∀ (n ctr : Nat) (ps : List ProxyDict),
      ((try_proxies_multiple_attempts_tr f sh n ctr ps).result = none →
        ∀ x ∈ (try_proxies_multiple_attempts_tr f sh n ctr ps).trace,
          x.2 = none) ∧
      (∀ c, (try_proxies_multiple_attempts_tr f sh n ctr ps).result = some c →
        ∃ t p, (try_proxies_multiple_attempts_tr f sh n ctr ps).trace
            = t ++ [(p, some c)] ∧
          (∀ x ∈ t, x.2 = none) ∧ f p = some c)
  | 0, ctr, ps => by
    constructor
    · intro _ x hx
      simp [try_proxies_multiple_attempts_tr] at hx
    · intro c hc
      simp [try_proxies_multiple_attempts_tr] at hc
  | n + 1, ctr, ps => by
    cases hr : (try_all_proxies_once_tr f (sh ctr ps)).1 with
    | some c0 =>
      constructor
      · intro hres
        simp [try_proxies_multiple_attempts_tr, hr] at hres
      · intro c hc
        simp only [try_proxies_multiple_attempts_tr, hr,
          Option.some.injEq] at hc ⊢
        subst hc
        exact once_tr_some_eq f (sh ctr ps) c0 hr
    | none =>
      have ih := multi_tr_char f sh n (ctr + 1) (sh ctr ps)
      have hall := once_tr_none_eq f (sh ctr ps) hr
      constructor
      · intro hres x hx
        simp only [try_proxies_multiple_attempts_tr, hr] at hres hx
        rcases List.mem_append.1 hx with hx | hx
        · rw [hall] at hx
          obtain ⟨q, _, hq⟩ := List.mem_map.1 hx
          simp [← hq]
        · exact ih.1 hres x hx
      · intro c hc
        simp only [try_proxies_multiple_attempts_tr, hr] at hc ⊢
        obtain ⟨t, q, h1, h2, h3⟩ := ih.2 c hc
        refine ⟨(try_all_proxies_once_tr f (sh ctr ps)).2 ++ t, q,
          by simp [h1], ?_, h3⟩
        intro x hx
        rcases List.mem_append.1 hx with hx | hx
        · rw [hall] at hx
          obtain ⟨q', _, hq⟩ := List.mem_map.1 hx
          simp [← hq]
        · exact h2 x hx

theorem multi_tr_all_fail (f : ProxyDict → Option String)
    (sh : Nat → List ProxyDict → List ProxyDict)
    (hsh : ∀ i l, (sh i l).Perm l) :
    ∀ (n ctr : Nat) (ps : List ProxyDict), (∀ p ∈ ps, f p = none) →
      (try_proxies_multiple_attempts_tr f sh n ctr ps).result = none ∧
      (try_proxies_multiple_attempts_tr f sh n ctr ps).trace.length
        = n * ps.length
  | 0, ctr, ps, _ => by simp [try_proxies_multiple_attempts_tr]
  | n + 1, ctr, ps, hf => by
    have hperm : (sh ctr ps).Perm ps := hsh ctr ps
    have hf1 : ∀ p ∈ sh ctr ps, f p = none :=
      fun p hp => hf p (hperm.mem_iff.1 hp)
    have hr : (try_all_proxies_once_tr f (sh ctr ps)).1 = none :=
      once_tr_none_of_all_fail f (sh ctr ps) hf1
    have hall := once_tr_none_eq f (sh ctr ps) hr
    have ih := multi_tr_all_fail f sh hsh n (ctr + 1) (sh ctr ps) hf1
    constructor
    · simp only [try_proxies_multiple_attempts_tr, hr]
      exact ih.1
    · simp only [try_proxies_multiple_attempts_tr, hr, List.length_append]
      rw [hall, List.length_map, ih.2, hperm.length_eq, Nat.succ_mul,
        Nat.add_comm]

theorem run_sources_char (f : ProxyDict → Option String)
    (sh : Nat → List ProxyDict → List ProxyDict) :
    ∀ (ctr : Nat) (ss : List SourceSpec),
      ((run_sources f sh ctr ss).result = .FAILED ∧
        (∀ x ∈ (run_sources f sh ctr ss).trace, x.2 = none) ∧
        (run_sources f sh ctr ss).pubs = []) ∨
      (∃ c t p, (run_sources f sh ctr ss).result = .DONE c ∧
        (run_sources f sh ctr ss).trace = t ++ [(p, some c)] ∧
        (∀ x ∈ t, x.2 = none) ∧ f p = some c ∧
        (run_sources f sh ctr ss).pubs = [c])
  | ctr, [] => by
    left
    refine ⟨rfl, ?_, rfl⟩
    intro x hx
    simp [run_sources] at hx
  | ctr, s :: rest => by
    by_cases hb : s.batch.isEmpty
    · simpa [run_sources, hb] using run_sources_char f sh ctr rest
    · cases hm : (try_proxies_multiple_attempts_tr f sh s.attempts ctr
        s.batch).result with
      | some c =>
        right
        obtain ⟨t, p, h1, h2, h3⟩ :=
          (multi_tr_char f sh s.attempts ctr s.batch).2 c hm
        exact ⟨c, t, p, by simp [run_sources, hb, hm],
          by simp [run_sources, hb, hm, h1], h2, h3,
          by simp [run_sources, hb, hm]⟩
      | none =>
        have hall := (multi_tr_char f sh s.attempts ctr s.batch).1 hm
        rcases run_sources_char f sh
          (try_proxies_multiple_attempts_tr f sh s.attempts ctr s.batch).ctr
          rest with ⟨h1, h2, h3⟩ | ⟨c, t, p, h1, h2, h3, h4, h5⟩
        · left
          refine ⟨by simp [run_sources, hb, hm, h1], ?_,
            by simp [run_sources, hb, hm, h3]⟩
          intro x hx
          simp only [run_sources, hb, hm] at hx
          simp only [Bool.false_eq_true, if_false] at hx
          rcases List.mem_append.1 hx with hx | hx
          · exact hall x hx
          · exact h2 x hx
        · right
          refine ⟨c,
            (try_proxies_multiple_attempts_tr f sh s.attempts ctr
              s.batch).trace ++ t, p,
            by simp [run_sources, hb, hm, h1],
            by simp [run_sources, hb, hm, h2], ?_, h4,
            by simp [run_sources, hb, hm, h5]⟩
          intro x hx
          rcases List.mem_append.1 hx with hx | hx
          · exact hall x hx
          · exact h3 x hx

theorem last_decomp {β : Type} (Q : β → Prop) :
    ∀ (t : List β) (y : β) (pre post : List β) (x : β),
      (∀ z ∈ t, Q z) → ¬ Q x → pre ++ x :: post = t ++ [y] →
      post = [] ∧ x = y := by
  intro t y pre post x hQ hx heq
  rw [List.append_eq_append_iff] at heq
  rcases heq with ⟨a, ha1, ha2⟩ | ⟨a, ha1, ha2⟩
  · cases a with
    | nil =>
      simp at ha2
      exact ⟨ha2.2, ha2.1⟩
    | cons b bs =>
      exfalso
      have hxb : x = b := by
        have := congrArg (fun l => l.head?) ha2
        simpa using this
      exact hx (hxb ▸ hQ b (by simp [ha1]))
  · have hlen := congrArg List.length ha2
    simp at hlen
    have ha : a = [] := List.eq_nil_of_length_eq_zero (by omega)
    have hp : post = [] := List.eq_nil_of_length_eq_zero (by omega)
    subst ha
    simp at ha2
    exact ⟨hp, ha2.1.symm⟩

/-! Helper lemmas about the listing-source parsers. -/

theorem pscrape_lines_type (t : String) :
    ∀ (ls : List String) (p : ProxyDict),
      p ∈ (pscrape_lines t ls).1 → p.type = t
  | [], p, h => by simp [pscrape_lines] at h
  | l :: ls, p, h => by
    simp only [pscrape_lines] at h
    by_cases hc : pyStrip l = "" ∨ ¬ pyContainsColon (pyStrip l)
    · rw [if_pos hc] at h
      exact pscrape_lines_type t ls p h
    · rw [if_neg hc] at h
      cases hsp : pySplitColon (pyStrip l) with
      | nil => rw [hsp] at h; simp at h
      | cons ip rest =>
        cases rest with
        | nil => rw [hsp] at h; simp at h
        | cons port rest2 =>
          cases rest2 with
          | nil =>
            rw [hsp] at h
            simp only [List.mem_cons] at h
            rcases h with h | h
            · simp [h]
            · exact pscrape_lines_type t ls p h
          | cons a as => rw [hsp] at h; simp at h

theorem pubproxy_items_type (t : String) :
    ∀ (its : List String) (p : ProxyDict),
      p ∈ (pubproxy_items t its).1 → p.type = t
  | [], p, h => by simp [pubproxy_items] at h
  | it :: its, p, h => by
    simp only [pubproxy_items] at h
    by_cases hc : it = ""
    · rw [if_pos hc] at h
      exact pubproxy_items_type t its p h
    · rw [if_neg hc] at h
      cases hsp : pySplitColon it with
      | nil => rw [hsp] at h; simp at h
      | cons ip rest =>
        cases rest with
        | nil => rw [hsp] at h; simp at h
        | cons port rest2 =>
          cases rest2 with
          | nil =>
            rw [hsp] at h
            simp only [List.mem_cons] at h
            rcases h with h | h
            · simp [h]
            · exact pubproxy_items_type t its p h
          | cons a as => rw [hsp] at h; simp at h

theorem proxyscan_entry_type (e : PsEntry) (p : ProxyDict)
    (h : proxyscan_entry e = some p) : p.type ≠ "" ∧ p.type ≠ "https" := by
  unfold proxyscan_entry at h
  rcases hip : e.jIp with _ | ip <;> rcases hport : e.jPort with _ | port <;>
    rw [hip, hport] at h <;> simp at h
  obtain ⟨hcond, hp⟩ := h
  rw [← hp]
  by_cases hh : pyLower e.jType = "https"
  · simp [hh]
  · simp only [if_neg hh]
    exact ⟨hcond.2.2, hh⟩

theorem gpl_entry_type (d : GplResp) (p : ProxyDict) (h : p ∈ gpl_entry d) :
    p.type = "http" ∨ p.type = "socks4" ∨ p.type = "socks5" := by
  unfold gpl_entry at h
  obtain ⟨pr, _, hpr⟩ := List.mem_filterMap.1 h
  rcases hip : d.jip with _ | ip <;> rcases hport : d.jport with _ | port <;>
    rw [hip, hport] at hpr <;> simp only [] at hpr
  · exact absurd hpr (by simp)
  · exact absurd hpr (by simp)
  · exact absurd hpr (by simp)
  · split at hpr
    next hcond =>
      simp only [Option.some.injEq] at hpr
      rw [← hpr]
      exact hcond.2.2
    next => simp at hpr

theorem fpw_row_props (r : FpwRow) (p : ProxyDict)
    (h : fpw_parse_row r = .ok (some p)) :
    p.ip ≠ "" ∧ p.port ≠ "" ∧ p.type ≠ "" := by
  unfold fpw_parse_row at h
  by_cases hlen : r.cells.length < 6
  · rw [if_pos hlen] at h
    simp at h
  · rw [if_neg hlen] at h
    cases hsp : pySplitWs (pyLower (r.cells.getD 5 "")) with
    | nil => rw [hsp] at h; simp at h
    | cons ptype rest =>
      rw [hsp] at h
      split at h
      · split at h
        next => simp at h
        next =>
          dsimp only [] at h
          split at h
          next hcond =>
            simp only [Except.ok.injEq, Option.some.injEq] at h
            rw [← h]
            exact hcond
          next => simp at h
      · split at h
        next => simp at h
        next =>
          dsimp only [] at h
          split at h
          next hcond =>
            simp only [Except.ok.injEq, Option.some.injEq] at h
            rw [← h]
            exact hcond
          next => simp at h

theorem fpw_rows_props :
    ∀ (rs : List FpwRow) (l : List ProxyDict),
      fpw_parse_rows rs = .ok l →
      ∀ p ∈ l, p.ip ≠ "" ∧ p.port ≠ "" ∧ p.type ≠ ""
  | [], l, h, p, hp => by
    simp [fpw_parse_rows] at h
    subst h
    simp at hp
  | r :: rs, l, h, p, hp => by
    simp only [fpw_parse_rows] at h
    cases hr : fpw_parse_row r with
    | error e => rw [hr] at h; simp at h
    | ok o =>
      rw [hr] at h
      cases hrs : fpw_parse_rows rs with
      | error e => rw [hrs] at h; simp at h
      | ok rest =>
        rw [hrs] at h
        simp only [Except.ok.injEq] at h
        cases o with
        | some q =>
          subst h
          simp only [List.mem_cons] at hp
          rcases hp with hp | hp
          · exact hp ▸ fpw_row_props r q hr
          · exact fpw_rows_props rs rest hrs p hp
        | none =>
          subst h
          exact fpw_rows_props rs rest hrs p hp

theorem pscrape_tier_type (t : String) (resp : Except Unit (List String))
    (p : ProxyDict) (hp : p ∈ pscrape_tier t resp) : p.type = t := by
  cases resp with
  | error e => simp [pscrape_tier] at hp
  | ok ls =>
    simp only [pscrape_tier] at hp
    exact pscrape_lines_type t ls p hp

theorem pubproxy_block_type (t : String) (resp : Except Unit (List String))
    (p : ProxyDict) (hp : p ∈ pubproxy_block t resp) : p.type = t := by
  cases resp with
  | error e => simp [pubproxy_block] at hp
  | ok its =>
    simp only [pubproxy_block] at hp
    exact pubproxy_items_type t its p hp

theorem pscrape_type_mem (rh r4 r5 : Except Unit (List String))
    (l : List ProxyDict) (hl : get_jp_proxies_from_proxyscrape rh r4 r5 = .ok l)
    (p : ProxyDict) (hp : p ∈ l) :
    p.type = "http" ∨ p.type = "socks4" ∨ p.type = "socks5" := by
  simp only [get_jp_proxies_from_proxyscrape, Except.ok.injEq] at hl
  subst hl
  rcases List.mem_append.1 hp with hp | hp
  · rcases List.mem_append.1 hp with hp | hp
    · exact Or.inl (pscrape_tier_type _ _ _ hp)
    · exact Or.inr (Or.inl (pscrape_tier_type _ _ _ hp))
  · exact Or.inr (Or.inr (pscrape_tier_type _ _ _ hp))

theorem pubproxy_type_mem (rh r4 r5 : Except Unit (List String))
    (l : List ProxyDict) (hl : get_jp_proxies_from_pubproxy rh r4 r5 = .ok l)
    (p : ProxyDict) (hp : p ∈ l) :
    p.type = "http" ∨ p.type = "socks4" ∨ p.type = "socks5" := by
  simp only [get_jp_proxies_from_pubproxy, Except.ok.injEq] at hl
  subst hl
  rcases List.mem_append.1 hp with hp | hp
  · rcases List.mem_append.1 hp with hp | hp
    · exact Or.inl (pubproxy_block_type _ _ _ hp)
    · exact Or.inr (Or.inl (pubproxy_block_type _ _ _ hp))
  · exact Or.inr (Or.inr (pubproxy_block_type _ _ _ hp))

theorem gpl_type_mem (resps : List (Except Unit GplResp))
    (l : List ProxyDict) (hl : get_jp_proxies_from_getproxylist resps = .ok l)
    (p : ProxyDict) (hp : p ∈ l) :
    p.type = "http" ∨ p.type = "socks4" ∨ p.type = "socks5" := by
  simp only [get_jp_proxies_from_getproxylist, Except.ok.injEq] at hl
  subst hl
  obtain ⟨r, _, hpr⟩ := List.mem_flatMap.1 hp
  cases r with
  | error e => simp at hpr
  | ok d => exact gpl_entry_type d p (by simpa using hpr)

theorem proxyscan_type_mem (resp : Except Unit (List PsEntry))
    (l : List ProxyDict) (hl : get_jp_proxies_from_proxyscan resp = .ok l)
    (p : ProxyDict) (hp : p ∈ l) : p.type ≠ "" ∧ p.type ≠ "https" := by
  simp only [get_jp_proxies_from_proxyscan, Except.ok.injEq] at hl
  subst hl
  cases resp with
  | error e => simp at hp
  | ok es =>
    simp only [] at hp
    obtain ⟨e, _, he⟩ := List.mem_filterMap.1 hp
    exact proxyscan_entry_type e p he

theorem fpw_props_mem (resp : Except Unit FpwPage) (l : List ProxyDict)
    (hl : get_jp_proxies_from_freeproxy_world resp = .ok l)
    (p : ProxyDict) (hp : p ∈ l) :
    p.ip ≠ "" ∧ p.port ≠ "" ∧ p.type ≠ "" := by
  cases resp with
  | error e =>
    simp only [get_jp_proxies_from_freeproxy_world, Except.ok.injEq] at hl
    subst hl
    simp at hp
  | ok pg =>
    cases pg with
    | noTable =>
      simp only [get_jp_proxies_from_freeproxy_world, Except.ok.injEq] at hl
      subst hl
      simp at hp
    | noTbody =>
      simp only [get_jp_proxies_from_freeproxy_world, Except.ok.injEq] at hl
      subst hl
      simp at hp
    | rows rs =>
      simp only [get_jp_proxies_from_freeproxy_world] at hl
      exact fpw_rows_props rs l hl p hp

/-! Claim theorems. -/

/-- C1 (counterexample): fetch_rss_with_proxy declares Success for a response
whose final status is 300 (not 2xx) when the body contains the marker, because
raise_for_status only raises for statuses in [400, 600); so "Success iff 2xx
and marker" is false as stated. -/
theorem C1_counterexample :
    fetch_rss_with_proxy (.resp 300 "<dc:date>") = .Success "<dc:date>" ∧
    is2xx 300 = false := by
  decide

/-- C1 (amended): the Fetcher returns Success with the response body if and
only if the transport succeeds with a status outside [400, 600) (so that
raise_for_status passes) and the body contains the literal substring
"<dc:date>"; a body with a passing status that lacks the marker yields
Invalid, never Success; a transport exception yields NetworkFailure. -/
theorem C1_success_iff_marker (status : Nat) (body : String) :
    (fetch_rss_with_proxy (.resp status body) = .Success body ↔
      raise_for_status_ok status = true ∧ contains_marker body = true) ∧
    (∀ c, fetch_rss_with_proxy (.resp status body) = .Success c → c = body) ∧
    (raise_for_status_ok status = true → contains_marker body = false →
      fetch_rss_with_proxy (.resp status body) = .Invalid) ∧
    fetch_rss_with_proxy .exn = .NetworkFailure := by
  by_cases h1 : raise_for_status_ok status <;>
    by_cases h2 : contains_marker body <;>
      simp [fetch_rss_with_proxy, h1, h2]

/-- C1 (witness): the amended theorem applied at status 200 and a marker-free
body: the transport succeeded but the result is Invalid. -/
theorem C1_success_iff_marker_witness :
    raise_for_status_ok 200 = true ∧ contains_marker "ok" = false ∧
    fetch_rss_with_proxy (.resp 200 "ok") = .Invalid :=
  ⟨by decide, by decide,
    (C1_success_iff_marker 200 "ok").2.2.1 (by decide) (by decide)⟩

/-- C2: in any run, any Fetcher invocation that returns content is the very
last Fetcher invocation of the whole run, and the run's terminal state is
DONE with exactly that content: no further proxy, round, or source is
consulted after the first success. -/
theorem C2_first_success_final (f : ProxyDict → Option String)
    (sh : Nat → List ProxyDict → List ProxyDict) (ctr : Nat)
    (ss : List SourceSpec) (pre post : List (ProxyDict × Option String))
    (p : ProxyDict) (c : String)
    (h : (run_sources f sh ctr ss).trace = pre ++ (p, some c) :: post) :
    post = [] ∧ (run_sources f sh ctr ss).result = .DONE c := by
  rcases run_sources_char f sh ctr ss with
    ⟨_, hall, _⟩ | ⟨c', t, q, h1, h2, h3, _, _⟩
  · exfalso
    have hx : (p, some c) ∈ (run_sources f sh ctr ss).trace := by
      rw [h]; simp
    simpa using hall _ hx
  · rw [h] at h2
    have := last_decomp (fun z => z.2 = none) t ((q, some c')) pre post
      ((p, some c)) h3 (by simp) h2
    obtain ⟨hpost, hxy⟩ := this
    have hc : c = c' := by
      have := congrArg Prod.snd hxy
      simpa using this
    exact ⟨hpost, hc ▸ h1⟩

/-- C2 (witness): a run over one source whose single proxy succeeds with
content "x": the successful invocation is last and the run is DONE "x". -/
theorem C2_first_success_final_witness :
    (run_sources (fun _ => some "x") (fun _ l => l) 0
        [⟨[⟨"a", "1", "http"⟩], 2⟩]).trace
      = [] ++ (⟨"a", "1", "http"⟩, some "x") :: [] ∧
    ([] : List (ProxyDict × Option String)) = [] ∧
    (run_sources (fun _ => some "x") (fun _ l => l) 0
        [⟨[⟨"a", "1", "http"⟩], 2⟩]).result = .DONE "x" :=
  ⟨by decide,
    C2_first_success_final (fun _ => some "x") (fun _ l => l) 0
      [⟨[⟨"a", "1", "http"⟩], 2⟩] [] [] ⟨"a", "1", "http"⟩ "x" (by decide)⟩

/-- C3: in every run the Publisher is invoked at most once; any published
content comes from a Fetcher invocation that returned it, and the run is DONE
with it; and when every fetch attempt fails the run is FAILED and the
Publisher is never invoked. -/
theorem C3_publish_at_most_once (f : ProxyDict → Option String)
    (sh : Nat → List ProxyDict → List ProxyDict) (ctr : Nat)
    (ss : List SourceSpec) :
    (run_sources f sh ctr ss).pubs.length ≤ 1 ∧
    (∀ c ∈ (run_sources f sh ctr ss).pubs,
      (run_sources f sh ctr ss).result = .DONE c ∧
      ∃ p, (p, some c) ∈ (run_sources f sh ctr ss).trace) ∧
    ((∀ p, f p = none) → (run_sources f sh ctr ss).result = .FAILED ∧
      (run_sources f sh ctr ss).pubs = []) := by
  rcases run_sources_char f sh ctr ss with
    ⟨h1, _, h3⟩ | ⟨c, t, q, h1, h2, _, h4, h5⟩
  · refine ⟨by simp [h3], ?_, fun _ => ⟨h1, h3⟩⟩
    intro c hc
    rw [h3] at hc
    simp at hc
  · refine ⟨by simp [h5], ?_, ?_⟩
    · intro c' hc'
      rw [h5] at hc'
      simp at hc'
      subst hc'
      exact ⟨h1, q, by rw [h2]; simp⟩
    · intro hfail
      exact absurd h4 (by simp [hfail])

/-- C3 (witness): with an always-failing Fetcher over one source, the run is
FAILED and nothing is published. -/
theorem C3_publish_at_most_once_witness :
    (run_sources (fun _ => none) (fun _ l => l) 0
        [⟨[⟨"a", "1", "http"⟩], 2⟩]).result = .FAILED ∧
    (run_sources (fun _ => none) (fun _ l => l) 0
        [⟨[⟨"a", "1", "http"⟩], 2⟩]).pubs = [] :=
  (C3_publish_at_most_once (fun _ => none) (fun _ l => l) 0
    [⟨[⟨"a", "1", "http"⟩], 2⟩]).2.2 (fun _ => rfl)

/-- C4: for a source with attempts = 2 and a batch of exactly 3 proxies that
all always fail, the Fetcher is invoked exactly 6 times (2 shuffled rounds of
3 proxies) for that source, the source's loop returns no content, and the
controller then advances to the next source (the run's trace continues with
the remaining sources' trace). -/
theorem C4_six_invocations (f : ProxyDict → Option String)
    (sh : Nat → List ProxyDict → List ProxyDict) (ctr : Nat)
    (batch : List ProxyDict) (rest : List SourceSpec)
    (hsh : ∀ i l, (sh i l).Perm l)
    (hf : ∀ p ∈ batch, f p = none)
    (hlen : batch.length = 3) :
    (try_proxies_multiple_attempts_tr f sh 2 ctr batch).trace.length = 6 ∧
    (try_proxies_multiple_attempts_tr f sh 2 ctr batch).result = none ∧
    (run_sources f sh ctr (⟨batch, 2⟩ :: rest)).trace =
      (try_proxies_multiple_attempts_tr f sh 2 ctr batch).trace ++
        (run_sources f sh
          (try_proxies_multiple_attempts_tr f sh 2 ctr batch).ctr
          rest).trace := by
  obtain ⟨hres, hlen6⟩ := multi_tr_all_fail f sh hsh 2 ctr batch hf
  have hb : batch.isEmpty = false := by
    cases batch with
    | nil => simp at hlen
    | cons a l => rfl
  refine ⟨by rw [hlen6, hlen], hres, ?_⟩
  simp [run_sources, hb, hres]

/-- C4 (witness): the theorem applied to an identity shuffler, an
always-failing Fetcher and a concrete 3-proxy batch. -/
theorem C4_six_invocations_witness :
    (try_proxies_multiple_attempts_tr (fun _ => none) (fun _ l => l) 2 0
        [⟨"a", "1", "http"⟩, ⟨"b", "2", "socks4"⟩, ⟨"c", "3", "socks5"⟩]
      ).trace.length = 6 ∧
    (try_proxies_multiple_attempts_tr (fun _ => none) (fun _ l => l) 2 0
        [⟨"a", "1", "http"⟩, ⟨"b", "2", "socks4"⟩, ⟨"c", "3", "socks5"⟩]
      ).result = none ∧
    (run_sources (fun _ => none) (fun _ l => l) 0
        (⟨[⟨"a", "1", "http"⟩, ⟨"b", "2", "socks4"⟩, ⟨"c", "3", "socks5"⟩],
          2⟩ :: [])).trace =
      (try_proxies_multiple_attempts_tr (fun _ => none) (fun _ l => l) 2 0
          [⟨"a", "1", "http"⟩, ⟨"b", "2", "socks4"⟩, ⟨"c", "3", "socks5"⟩]
        ).trace ++
        (run_sources (fun _ => none) (fun _ l => l)
          (try_proxies_multiple_attempts_tr (fun _ => none) (fun _ l => l) 2 0
              [⟨"a", "1", "http"⟩, ⟨"b", "2", "socks4"⟩,
                ⟨"c", "3", "socks5"⟩]).ctr
          []).trace :=
  C4_six_invocations (fun _ => none) (fun _ l => l) 0
    [⟨"a", "1", "http"⟩, ⟨"b", "2", "socks4"⟩, ⟨"c", "3", "socks5"⟩] []
    (fun _ l => List.Perm.refl l) (fun _ _ => rfl) rfl

/-- C9: a source block whose listing produced an empty batch contributes
nothing to the run: the run over that source followed by the remaining
sources equals the run over the remaining sources alone, so the Fetcher is
never invoked for that source. -/
theorem C9_empty_batch_skipped (f : ProxyDict → Option String)
    (sh : Nat → List ProxyDict → List ProxyDict) (ctr : Nat) (a : Nat)
    (rest : List SourceSpec) :
    run_sources f sh ctr (⟨[], a⟩ :: rest) = run_sources f sh ctr rest := by
  simp [run_sources]

/-- C10: try_proxies_multiple_attempts only reorders the caller's proxy list
(via the per-round shuffles): whenever each shuffle draw returns a
permutation of its input, the final state of the list is a permutation of —
i.e. the same multiset as — the initial list, for any Fetcher, any number of
attempts and any starting draw counter. -/
theorem C10_list_preserved (f : ProxyDict → Option String)
    (sh : Nat → List ProxyDict → List ProxyDict)
    (hsh : ∀ i l, (sh i l).Perm l) :
    ∀ (n ctr : Nat) (ps : List ProxyDict),
      ((try_proxies_multiple_attempts f sh n ctr ps).2).Perm ps
  | 0, ctr, ps => by
    simp [try_proxies_multiple_attempts]
  | n + 1, ctr, ps => by
    cases h : try_all_proxies_once f (sh ctr ps) with
    | some c =>
      simp only [try_proxies_multiple_attempts, h]
      exact hsh ctr ps
    | none =>
      simp only [try_proxies_multiple_attempts, h]
      exact (C10_list_preserved f sh hsh n (ctr + 1) (sh ctr ps)).trans
        (hsh ctr ps)

/-- C5 (counterexample): the emitted record shape is not validated as claimed:
the ProxyScrape source emits a record with an empty address and an
out-of-range port (line " :99999"), and the freeproxy.world source emits a
record whose scheme "elite" is outside {http, socks4, socks5}; both violate
the claimed shape predicate. -/
theorem C5_counterexample :
    get_jp_proxies_from_proxyscrape (.ok [" :99999"]) (.error ()) (.error ())
      = .ok [⟨"", "99999", "http"⟩] ∧
    claimed_record_shape ⟨"", "99999", "http"⟩ = false ∧
    get_jp_proxies_from_freeproxy_world
      (.ok (.rows [⟨["1.2.3.4", "80", "a", "b", "c", "elite"], none⟩]))
      = .ok [⟨"1.2.3.4", "80", "elite"⟩] ∧
    claimed_record_shape ⟨"1.2.3.4", "80", "elite"⟩ = false := by
  decide

/-- C5 (amended): every record emitted by ProxyScrape, PubProxy and
GetProxyList carries a scheme in {http, socks4, socks5}; every record emitted
by Proxyscan carries a non-empty scheme; every record emitted by
freeproxy.world has non-empty address, port and scheme strings. No source
validates the port as an integer in [1, 65535], and the address may be empty
for the line-splitting sources. -/
theorem C5_emitted_shape :
    (∀ rh r4 r5 l, get_jp_proxies_from_proxyscrape rh r4 r5 = .ok l →
      ∀ p ∈ l, p.type = "http" ∨ p.type = "socks4" ∨ p.type = "socks5") ∧
    (∀ rh r4 r5 l, get_jp_proxies_from_pubproxy rh r4 r5 = .ok l →
      ∀ p ∈ l, p.type = "http" ∨ p.type = "socks4" ∨ p.type = "socks5") ∧
    (∀ resps l, get_jp_proxies_from_getproxylist resps = .ok l →
      ∀ p ∈ l, p.type = "http" ∨ p.type = "socks4" ∨ p.type = "socks5") ∧
    (∀ resp l, get_jp_proxies_from_proxyscan resp = .ok l →
      ∀ p ∈ l, p.type ≠ "") ∧
    (∀ resp l, get_jp_proxies_from_freeproxy_world resp = .ok l →
      ∀ p ∈ l, p.ip ≠ "" ∧ p.port ≠ "" ∧ p.type ≠ "") :=
  ⟨fun rh r4 r5 l hl p hp => pscrape_type_mem rh r4 r5 l hl p hp,
    fun rh r4 r5 l hl p hp => pubproxy_type_mem rh r4 r5 l hl p hp,
    fun resps l hl p hp => gpl_type_mem resps l hl p hp,
    fun resp l hl p hp => (proxyscan_type_mem resp l hl p hp).1,
    fun resp l hl p hp => fpw_props_mem resp l hl p hp⟩

/-- C5 (witness): the amended theorem's freeproxy.world clause applied to a
concrete one-row page. -/
theorem C5_emitted_shape_witness :
    get_jp_proxies_from_freeproxy_world
        (.ok (.rows [⟨["1.2.3.4", "80", "a", "b", "c", "http"], none⟩]))
      = .ok [⟨"1.2.3.4", "80", "http"⟩] ∧
    ((⟨"1.2.3.4", "80", "http"⟩ : ProxyDict).ip ≠ "" ∧
      (⟨"1.2.3.4", "80", "http"⟩ : ProxyDict).port ≠ "" ∧
      (⟨"1.2.3.4", "80", "http"⟩ : ProxyDict).type ≠ "") :=
  ⟨by decide,
    C5_emitted_shape.2.2.2.2
      (.ok (.rows [⟨["1.2.3.4", "80", "a", "b", "c", "http"], none⟩]))
      [⟨"1.2.3.4", "80", "http"⟩] (by decide) ⟨"1.2.3.4", "80", "http"⟩
      (by decide)⟩

/-- C6 (counterexample): the freeproxy.world source performs no https
coercion: a row whose type cell reads "https" is emitted with scheme "https"
unchanged, so not every variant coerces https and an https-schemed record can
be emitted. -/
theorem C6_counterexample :
    get_jp_proxies_from_freeproxy_world
        (.ok (.rows [⟨["1.2.3.4", "80", "a", "b", "c", "https"], none⟩]))
      = .ok [⟨"1.2.3.4", "80", "https"⟩] ∧
    (⟨"1.2.3.4", "80", "https"⟩ : ProxyDict).type = "https" := by
  decide

/-- C6 (amended): the Proxyscan and GetProxyList sources coerce https-labeled
types to http, and the ProxyScrape and PubProxy sources assign fixed
non-https labels, so none of these four sources ever emits an https-schemed
record; the freeproxy.world source emits the scraped type verbatim and is not
covered by the guarantee. -/
theorem C6_no_https_emitted :
    (∀ resp l, get_jp_proxies_from_proxyscan resp = .ok l →
      ∀ p ∈ l, p.type ≠ "https") ∧
    (∀ resps l, get_jp_proxies_from_getproxylist resps = .ok l →
      ∀ p ∈ l, p.type ≠ "https") ∧
    (∀ rh r4 r5 l, get_jp_proxies_from_proxyscrape rh r4 r5 = .ok l →
      ∀ p ∈ l, p.type ≠ "https") ∧
    (∀ rh r4 r5 l, get_jp_proxies_from_pubproxy rh r4 r5 = .ok l →
      ∀ p ∈ l, p.type ≠ "https") := by
  refine ⟨fun resp l hl p hp => (proxyscan_type_mem resp l hl p hp).2,
    fun resps l hl p hp => ?_, fun rh r4 r5 l hl p hp => ?_,
    fun rh r4 r5 l hl p hp => ?_⟩
  · rcases gpl_type_mem resps l hl p hp with h | h | h <;> simp [h]
  · rcases pscrape_type_mem rh r4 r5 l hl p hp with h | h | h <;> simp [h]
  · rcases pubproxy_type_mem rh r4 r5 l hl p hp with h | h | h <;> simp [h]

/-- C6 (witness): the amended theorem's Proxyscan clause applied to a
concrete entry labeled "https", which is emitted with scheme "http". -/
theorem C6_no_https_emitted_witness :
    get_jp_proxies_from_proxyscan (.ok [⟨some "1.2.3.4", some "80", "https"⟩])
      = .ok [⟨"1.2.3.4", "80", "http"⟩] ∧
    (⟨"1.2.3.4", "80", "http"⟩ : ProxyDict).type ≠ "https" :=
  ⟨by decide,
    C6_no_https_emitted.1 (.ok [⟨some "1.2.3.4", some "80", "https"⟩])
      [⟨"1.2.3.4", "80", "http"⟩] (by decide) ⟨"1.2.3.4", "80", "http"⟩
      (by decide)⟩

/-- C7 (counterexample): the freeproxy.world listing function can raise to
its caller: only its network request is inside a try/except, and the row
parser's IndexError (from splitting an empty type cell) escapes the function,
modelled as a top-level error. -/
theorem C7_counterexample :
    get_jp_proxies_from_freeproxy_world
        (.ok (.rows [⟨["1.2.3.4", "80", "a", "b", "c", ""], none⟩]))
      = .error () := by
  decide

/-- C7 (amended): the ProxyScrape, Proxyscan, PubProxy and GetProxyList
sources never raise — for every response they return a list normally — and
the freeproxy.world source returns an empty list on a failed request or
missing table markup; only its row parsing can raise. -/
theorem C7_soft_failure :
    (∀ rh r4 r5, ∃ l, get_jp_proxies_from_proxyscrape rh r4 r5 = .ok l) ∧
    (∀ resp, ∃ l, get_jp_proxies_from_proxyscan resp = .ok l) ∧
    (∀ rh r4 r5, ∃ l, get_jp_proxies_from_pubproxy rh r4 r5 = .ok l) ∧
    (∀ resps, ∃ l, get_jp_proxies_from_getproxylist resps = .ok l) ∧
    (∀ e : Unit, get_jp_proxies_from_freeproxy_world (.error e) = .ok []) ∧
    get_jp_proxies_from_freeproxy_world (.ok .noTable) = .ok [] ∧
    get_jp_proxies_from_freeproxy_world (.ok .noTbody) = .ok [] :=
  ⟨fun _ _ _ => ⟨_, rfl⟩, fun _ => ⟨_, rfl⟩, fun _ _ _ => ⟨_, rfl⟩,
    fun _ => ⟨_, rfl⟩, fun _ => rfl, rfl, rfl⟩

/-- C8: publish with no prior stored revision writes without a revision id
and the store reports Created; publish over an existing revision supplies the
read revision id and, when nothing changed in between, the store reports
Updated with the new content written; and when the revision read before the
write no longer matches the stored one (a concurrent modification in the
GET-PUT window), the result is Rejected and the stored content is unaltered. -/
theorem C8_publish_results (content newSha : String) :
    (update_github_rss_feed ⟨none⟩ id content newSha
        = (201, ⟨some (content, newSha)⟩) ∧ publish_result 201 = .Created) ∧
    (∀ c0 sha0, update_github_rss_feed ⟨some (c0, sha0)⟩ id content newSha
        = (200, ⟨some (content, newSha)⟩) ∧ publish_result 200 = .Updated) ∧
    (∀ (s0 : Store) (mid : Store → Store) (c1 sha1 : String),
      (mid s0).file = some (c1, sha1) → store_get s0 ≠ some sha1 →
      publish_result (update_github_rss_feed s0 mid content newSha).1
          = .Rejected ∧
      (update_github_rss_feed s0 mid content newSha).2 = mid s0) := by
  refine ⟨⟨rfl, rfl⟩, fun c0 sha0 => ⟨?_, rfl⟩, ?_⟩
  · simp [update_github_rss_feed, store_get, store_put]
  · intro s0 mid c1 sha1 hfile hne
    have hput : ∀ sha : Option String, (∀ g, sha = some g → g ≠ sha1) →
        store_put (mid s0) sha content newSha = (409, mid s0) ∨
        store_put (mid s0) sha content newSha = (422, mid s0) := by
      intro sha hg
      unfold store_put
      rw [hfile]
      cases sha with
      | none => right; rfl
      | some g =>
        left
        simp [hg g rfl]
    have hsha : ∀ g, store_get s0 = some g → g ≠ sha1 := by
      intro g hg he
      exact hne (he ▸ hg)
    unfold update_github_rss_feed
    rcases hput (store_get s0) hsha with h | h <;> rw [h] <;>
      exact ⟨rfl, rfl⟩

/-- C8 (witness): the stale-revision clause applied to a store whose revision
changes from "s1" to "s2" between the read and the write: the publish is
Rejected and the stored content stays what the concurrent writer left. -/
theorem C8_publish_results_witness :
    publish_result
        (update_github_rss_feed ⟨some ("c", "s1")⟩
          (fun _ => ⟨some ("c2", "s2")⟩) "x" "n").1 = .Rejected ∧
    (update_github_rss_feed ⟨some ("c", "s1")⟩
        (fun _ => ⟨some ("c2", "s2")⟩) "x" "n").2 = ⟨some ("c2", "s2")⟩ :=
  (C8_publish_results "x" "n").2.2 ⟨some ("c", "s1")⟩
    (fun _ => ⟨some ("c2", "s2")⟩) "c2" "s2" rfl (by decide)

/-- C10 (witness): the theorem applied to the identity shuffler, an
always-failing Fetcher and a concrete 2-proxy list. -/
theorem C10_list_preserved_witness :
    ((try_proxies_multiple_attempts (fun _ => none) (fun _ l => l) 3 0
        [⟨"a", "1", "http"⟩, ⟨"b", "2", "socks4"⟩]).2).Perm
      [⟨"a", "1", "http"⟩, ⟨"b", "2", "socks4"⟩] :=
  C10_list_preserved (fun _ => none) (fun _ l => l)
    (fun _ l => List.Perm.refl l) 3 0
    [⟨"a", "1", "http"⟩, ⟨"b", "2", "socks4"⟩]

end ProxyRss
